import Mathlib

/-!
Verification of the skill-compiler core: the plugin registry with IR merging
(internal/ir), the artifact generation pipeline (internal/generate and the
generate/diff commands in cmd/sc), and the fingerprint cache semantics.
Go maps are embedded as association lists carrying an explicit iteration
order; fallible Go calls return `Except`; the external LLM provider is an
explicit function argument.  All definitions follow the Go source; the few
data declarations whose Go file is not part of the snapshot (the
instructions, cache and IR element types) are modelled from the design
document and are marked as such.
-/

namespace SkillCompiler

/-- Modelled from the spec: a SpecSource record (the instructions package is
absent from the snapshot); only the fields the plugins' Detect functions and
the registry consult are carried. -/
structure SpecSource where
  path : String := ""
  typ : String := ""
  binary : String := ""
deriving DecidableEq, Repr

/-- Modelled from the spec: one IR operation (id, name, description,
method/path locator); the ir package's struct file is absent from the
snapshot. -/
structure Operation where
  opId : String := ""
  name : String := ""
  description : String := ""
  method : String := ""
  path : String := ""
deriving DecidableEq, Repr

/-- Modelled from the spec: a named structured type definition. -/
structure TypeDef where
  name : String := ""
  fields : List String := []
deriving DecidableEq, Repr

/-- Modelled from the spec: a named auth scheme. -/
structure AuthScheme where
  name : String := ""
  scheme : String := ""
deriving DecidableEq, Repr

/-- Modelled from the spec: a logical group, name plus ordered operation ids. -/
structure OpGroup where
  name : String := ""
  operationIds : List String := []
deriving DecidableEq, Repr

/-- Modelled from the spec: the aggregate IR. Metadata is a string map,
embedded as an association list in iteration order. -/
structure IntermediateRepr where
  operations : List Operation := []
  types : List TypeDef := []
  auth : List AuthScheme := []
  groups : List OpGroup := []
  metadata : List (String × String) := []
deriving DecidableEq, Repr

/-- Insertion into a string map embedded as an association list: replace the
value when the key exists, append otherwise. -/
def setKey : List (String × String) → String → String → List (String × String)
  | [], k, v => [(k, v)]
  | (k', v') :: rest, k, v =>
    if k' = k then (k, v) :: rest else (k', v') :: setKey rest k v

/-- Modelled from the spec: metadata overlay, entries of the second map
written over the first, last-source-wins on key collision. -/
def overlayMeta (a b : List (String × String)) : List (String × String) :=
  b.foldl (fun acc kv => setKey acc kv.1 kv.2) a

/-- Modelled from the spec: combining fragment `b` into accumulator `a`
appends b's operations, types, auth schemes and groups to a's sequences
(source order preserved) and overlays b's metadata onto a's. -/
def IntermediateRepr.merge (a b : IntermediateRepr) : IntermediateRepr :=
  ⟨a.operations ++ b.operations, a.types ++ b.types, a.auth ++ b.auth,
   a.groups ++ b.groups, overlayMeta a.metadata b.metadata⟩

/-- Translated from ir.Warning: a non-fatal issue found during parsing or
validation. -/
structure Warning where
  message : String := ""
  path : String := ""
deriving DecidableEq, Repr

/-- Translated from ir.SpecPlugin: the capability record every spec plugin
implements.  Fetch and Parse are embedded as total functions into `Except`;
raw fetched bytes are a `String`. -/
structure SpecPlugin where
  name : String
  detect : SpecSource → Bool
  fetch : SpecSource → Except String String
  parse : String → SpecSource → Except String IntermediateRepr
  validate : IntermediateRepr → List Warning

/-- Translated from ir.Registry.Detect: the first registered plugin whose
Detect returns true handles the source; an error when none does. -/
def registryDetect (plugins : List SpecPlugin) (src : SpecSource) :
    Except String SpecPlugin :=
  match plugins.find? (fun p => p.detect src) with
  | some p => .ok p
  | none => .error "no plugin can handle spec source"

/-- Result triple of ProcessSources, mirroring the Go return
`(*IntermediateRepr, []Warning, error)`; a nil pointer / nil slice is `none`
respectively the empty list. -/
structure ProcessResult where
  ir : Option IntermediateRepr
  warnings : List Warning
  err : Option String
deriving Repr

/-- Translated from the loop body of ir.Registry.ProcessSources: detect,
fetch, parse and validate each source in caller order, accumulating warnings
and merging fragments; every failure returns `(nil, nil, err)` at once. -/
def processLoop (plugins : List SpecPlugin) (acc : IntermediateRepr)
    (ws : List Warning) : List SpecSource → ProcessResult
  | [] => ⟨some acc, ws, none⟩
  | src :: rest =>
    match registryDetect plugins src with
    | .error e => ⟨none, [], some e⟩
    | .ok plugin =>
      match plugin.fetch src with
      | .error e => ⟨none, [], some ("[" ++ plugin.name ++ "] fetch: " ++ e)⟩
      | .ok raw =>
        match plugin.parse raw src with
        | .error e => ⟨none, [], some ("[" ++ plugin.name ++ "] parse: " ++ e)⟩
        | .ok parsed =>
          processLoop plugins (acc.merge parsed) (ws ++ plugin.validate parsed) rest

/-- Translated from ir.Registry.ProcessSources: start from the empty IR with
an empty metadata map and no warnings. -/
def processSources (plugins : List SpecPlugin) (sources : List SpecSource) :
    ProcessResult :=
  processLoop plugins ⟨[], [], [], [], []⟩ [] sources

/-- Whether the processing steps for one source fail: no plugin detects it,
or its fetch or parse errors.  Helper predicate for stating fail-fast. -/
def sourceStepFails (plugins : List SpecPlugin) (src : SpecSource) : Bool :=
  match registryDetect plugins src with
  | .error _ => true
  | .ok p =>
    match p.fetch src with
    | .error _ => true
    | .ok raw =>
      match p.parse raw src with
      | .error _ => true
      | .ok _ => false

/-- Validation warnings one source contributes when its steps succeed.
Helper for stating warning accumulation. -/
def sourceWarnings (plugins : List SpecPlugin) (src : SpecSource) :
    List Warning :=
  match registryDetect plugins src with
  | .error _ => []
  | .ok p =>
    match p.fetch src with
    | .error _ => []
    | .ok raw =>
      match p.parse raw src with
      | .error _ => []
      | .ok parsed => p.validate parsed

/-- Translated from generate.ArtifactID and its constants. -/
inductive ArtifactID where
  | skill
  | reference
  | examples
  | scripts
  | llms
  | llmsApi
  | llmsFull
  | changelog
deriving DecidableEq, Repr

/-- Translated from the ArtifactID string constants (`string(id)` in Go). -/
def artifactName : ArtifactID → String
  | .skill => "skill"
  | .reference => "reference"
  | .examples => "examples"
  | .scripts => "scripts"
  | .llms => "llms"
  | .llmsApi => "llms-api"
  | .llmsFull => "llms-full"
  | .changelog => "changelog"

/-- Translated from generate.AllArtifacts: the fixed artifact sequence in
generation order. -/
def AllArtifacts : List ArtifactID :=
  [.skill, .reference, .examples, .scripts, .llms, .llmsApi, .llmsFull, .changelog]

/-- Modelled from the spec: the per-artifact enable/disable toggle and
optional custom filename from the instructions frontmatter (the instructions
package is absent from the snapshot). -/
structure Toggle where
  enabled : Bool := true
  filename : String := ""
deriving DecidableEq, Repr

/-- Modelled from the spec: the toggle's IsEnabled accessor. -/
def Toggle.isEnabled (t : Toggle) : Bool := t.enabled

/-- Modelled from the spec: the fields of the parsed instructions file that
the generation pipeline consumes (name, env prefix, markdown sections as a
string map in iteration order, artifact toggles, skill frontmatter data). -/
structure Instructions where
  name : String := ""
  envPrefix : String := ""
  sections : List (String × String) := []
  artifacts : List (String × Toggle) := []
  skillEnv : List String := []
  skillLicense : String := ""
  skillCompatibility : String := ""
  skillAllowedTools : String := ""
  skillMetadata : List (String × String) := []

/-- Insertion step for sorting a string map's entries by key. -/
def insertSortedKV (kv : String × String) :
    List (String × String) → List (String × String)
  | [] => [kv]
  | x :: xs => if kv.1 < x.1 then kv :: x :: xs else x :: insertSortedKV kv xs

/-- Sorting a string map's entries by key, as Go's encoding/json does when it
serializes a map. -/
def sortByKey (l : List (String × String)) : List (String × String) :=
  l.foldr insertSortedKV []

def serializeOp (o : Operation) : String :=
  o.opId ++ "|" ++ o.name ++ "|" ++ o.description ++ "|" ++ o.method ++ "|" ++ o.path

def serializeType (t : TypeDef) : String :=
  t.name ++ "|" ++ String.intercalate "," t.fields

def serializeAuth (a : AuthScheme) : String :=
  a.name ++ "|" ++ a.scheme

def serializeGroup (g : OpGroup) : String :=
  g.name ++ "|" ++ String.intercalate "," g.operationIds

/-- Modelled from the spec: Go's `json.Marshal` of the IR, a deterministic
function of the IR value (encoding/json writes map keys sorted), embedded as
a deterministic rendering whose exact shape is opaque to every claim. -/
def serializeIR (ir : IntermediateRepr) : String :=
  "operations:" ++ String.intercalate ";" (ir.operations.map serializeOp) ++
  "|types:" ++ String.intercalate ";" (ir.types.map serializeType) ++
  "|auth:" ++ String.intercalate ";" (ir.auth.map serializeAuth) ++
  "|groups:" ++ String.intercalate ";" (ir.groups.map serializeGroup) ++
  "|metadata:" ++
    String.intercalate ";" ((sortByKey ir.metadata).map (fun kv => kv.1 ++ "=" ++ kv.2))

/-- Modelled from the spec: `json.Marshal` of the skill metadata map
(deterministic, keys sorted). -/
def jsonMeta (m : List (String × String)) : String :=
  String.intercalate "," ((sortByKey m).map (fun kv => kv.1 ++ ":" ++ kv.2))

/-- Modelled from the spec: the static prompt template text for the skill
artifact (the prompt source file is absent from the snapshot); the eight
templates are fixed, pairwise distinct strings. -/
def SkillPrompt : String := "SYSTEM PROMPT skill"

/-- Modelled from the spec: static prompt template for the reference artifact. -/
def ReferencePrompt : String := "SYSTEM PROMPT reference"

/-- Modelled from the spec: static prompt template for the examples artifact. -/
def ExamplesPrompt : String := "SYSTEM PROMPT examples"

/-- Modelled from the spec: static prompt template for the scripts artifact. -/
def ScriptsPrompt : String := "SYSTEM PROMPT scripts"

/-- Modelled from the spec: static prompt template for llms.txt. -/
def LlmsTxtPrompt : String := "SYSTEM PROMPT llms"

/-- Modelled from the spec: static prompt template for llms-api.txt. -/
def LlmsAPITxtPrompt : String := "SYSTEM PROMPT llms-api"

/-- Modelled from the spec: static prompt template for llms-full.txt. -/
def LlmsFullTxtPrompt : String := "SYSTEM PROMPT llms-full"

/-- Modelled from the spec: static prompt template for the changelog artifact. -/
def ChangelogPrompt : String := "SYSTEM PROMPT changelog"

/-- Translated from Pipeline.systemPrompt: the static system prompt per
artifact. -/
def systemPromptFor : ArtifactID → String
  | .skill => SkillPrompt
  | .reference => ReferencePrompt
  | .examples => ExamplesPrompt
  | .scripts => ScriptsPrompt
  | .llms => LlmsTxtPrompt
  | .llmsApi => LlmsAPITxtPrompt
  | .llmsFull => LlmsFullTxtPrompt
  | .changelog => ChangelogPrompt

/-- Translated from Pipeline.RelevantSections: the instruction-section parts
relevant to an artifact.  For skill, llms-full and scripts the Go code ranges
over the Sections map, so the part order is the map's iteration order, which
the association-list argument carries explicitly. -/
def relevantSectionParts (sections : List (String × String)) :
    ArtifactID → List String
  | .skill => sections.map (fun nc => nc.1 ++ "\n" ++ nc.2)
  | .llmsFull => sections.map (fun nc => nc.1 ++ "\n" ++ nc.2)
  | .scripts => sections.map (fun nc => nc.1 ++ "\n" ++ nc.2)
  | .examples =>
    ["Workflows", "Examples", "Common patterns"].filterMap (fun k =>
      (sections.lookup k).map (fun c => k ++ "\n" ++ c))
  | .llms =>
    match sections.lookup "Product" with
    | some c => ["Product\n" ++ c]
    | none => []
  | .changelog => []
  | .reference => []
  | .llmsApi => []

/-- Translated from Pipeline.RelevantSections: the parts joined by blank
lines, the string fed (with the serialized IR and the system prompt) to the
input hash. -/
def relevantSections (sections : List (String × String)) (id : ArtifactID) :
    String :=
  String.intercalate "\n\n" (relevantSectionParts sections id)

/-- Translated from Pipeline.artifactPath: the default relative output path
per artifact. -/
def defaultArtifactPath (inst : Instructions) : ArtifactID → String
  | .skill => inst.name ++ "/SKILL.md"
  | .reference => inst.name ++ "/references/reference.md"
  | .examples => inst.name ++ "/references/examples.md"
  | .scripts => inst.name ++ "/scripts"
  | .llms => "llms.txt"
  | .llmsApi => "llms-api.txt"
  | .llmsFull => "llms-full.txt"
  | .changelog => "CHANGELOG.md"

/-- Translated from Pipeline.artifactPath: a custom frontmatter filename
overrides the default, placed per artifact kind. -/
def artifactPath (inst : Instructions) (id : ArtifactID) : String :=
  match inst.artifacts.lookup (artifactName id) with
  | some t =>
    if t.filename = "" then defaultArtifactPath inst id
    else
      match id with
      | .skill => inst.name ++ "/" ++ t.filename
      | .reference => inst.name ++ "/references/" ++ t.filename
      | .examples => inst.name ++ "/references/" ++ t.filename
      | .scripts => inst.name ++ "/scripts/" ++ t.filename
      | _ => t.filename
  | none => defaultArtifactPath inst id

/-- Translated from provider.GenerateResponse. -/
structure GenerateResponse where
  content : String := ""
  model : String := ""
  tokensIn : Nat := 0
  tokensOut : Nat := 0
deriving DecidableEq, Repr

/-- Translated from estimateTokens: about four characters per token. -/
def estimateTokens (text : String) : Nat := text.length / 4

/-- Translated from maxTokensForArtifact. -/
def maxTokensForArtifact : ArtifactID → Nat
  | .skill => 8192
  | .reference => 16384
  | .examples => 8192
  | .scripts => 8192
  | .llms => 1024
  | .llmsApi => 4096
  | .llmsFull => 16384
  | .changelog => 4096

/-- Marker part the changelog user message gets when no previous artifacts
exist (translated from Pipeline.userMessage). -/
def noPrevMarker : String :=
  "## Note\nThis is the first generation — no previous artifacts exist."

/-- Translated from the changelog branch of Pipeline.userMessage: previous
contents of the designated siblings (skill, reference, examples) and of the
changelog itself, or the first-generation marker when none are non-empty. -/
def changelogPrevParts (prev : List (ArtifactID × String)) : List String :=
  let sibs := ([ArtifactID.skill, ArtifactID.reference, ArtifactID.examples]).filterMap
    (fun pid =>
      match prev.lookup pid with
      | some s => if s = "" then none else some ("## Previous " ++ artifactName pid ++ "\n" ++ s)
      | none => none)
  let cl :=
    match prev.lookup ArtifactID.changelog with
    | some s => if s = "" then [] else ["## Previous CHANGELOG.md\n" ++ s]
    | none => []
  let ps := sibs ++ cl
  if ps = [] then [noPrevMarker] else ps

/-- Translated from the skill-specific metadata block of Pipeline.userMessage. -/
def skillMetaParts (inst : Instructions) : List String :=
  (if inst.skillLicense = "" then [] else ["License: " ++ inst.skillLicense]) ++
  (if inst.skillCompatibility = "" then []
   else ["Compatibility: " ++ inst.skillCompatibility]) ++
  (if inst.skillAllowedTools = "" then []
   else ["Allowed Tools: " ++ inst.skillAllowedTools]) ++
  (if inst.skillMetadata = [] then []
   else ["Metadata: " ++ jsonMeta inst.skillMetadata])

/-- Translated from Pipeline.userMessage: the parts of the user message in
order — project header, skill metadata (skill only), the artifact-specific
instruction sections or previous-artifact block, then the serialized IR. -/
def userMessageParts (inst : Instructions) (ir : IntermediateRepr)
    (prev : List (ArtifactID × String)) (id : ArtifactID) : List String :=
  let base :=
    ["Tool/Project Name: " ++ inst.name,
     "Environment Variable Prefix: " ++ inst.envPrefix] ++
    (if inst.skillEnv = [] then []
     else ["Environment Variables: " ++ String.intercalate ", " inst.skillEnv]) ++
    (if id = ArtifactID.skill then skillMetaParts inst else [])
  let mid :=
    match id with
    | .skill => inst.sections.map (fun nc => "## Instructions: " ++ nc.1 ++ "\n" ++ nc.2)
    | .examples =>
      ["Workflows", "Examples", "Common patterns"].filterMap (fun k =>
        (inst.sections.lookup k).map (fun c => "## Instructions: " ++ k ++ "\n" ++ c))
    | .llms =>
      match inst.sections.lookup "Product" with
      | some c => ["## Instructions: Product\n" ++ c]
      | none => []
    | .llmsFull => inst.sections.map (fun nc => "## Instructions: " ++ nc.1 ++ "\n" ++ nc.2)
    | .scripts => inst.sections.map (fun nc => "## Instructions: " ++ nc.1 ++ "\n" ++ nc.2)
    | .changelog => changelogPrevParts prev
    | _ => []
  base ++ mid ++
    ["## Spec (Intermediate Representation)\n```json\n" ++ serializeIR ir ++ "\n```"]

/-- Translated from Pipeline.userMessage: the parts joined by blank lines. -/
def userMessage (inst : Instructions) (ir : IntermediateRepr)
    (prev : List (ArtifactID × String)) (id : ArtifactID) : String :=
  String.intercalate "\n\n" (userMessageParts inst ir prev id)

/-- Translated from generate.Options (output handling flags plus the
per-run inputs handed in by the generate command). -/
structure PipelineOptions where
  outputDir : String := ""
  only : List String := []
  force : Bool := false
  dryRun : Bool := false
  diffMode : Bool := false
  verbose : Bool := false
  prevArtifacts : List (ArtifactID × String) := []
  skipArtifacts : List ArtifactID := []

/-- Translated from generate.Pipeline; the external LLM provider is embedded
as a function from the request (system prompt, user message, max tokens) to
a response or an error. -/
structure Pipeline where
  provider : String → String → Nat → Except String GenerateResponse
  inst : Instructions
  ir : IntermediateRepr
  opts : PipelineOptions

/-- Translated from generate.ArtifactResult. -/
structure ArtifactResult where
  id : ArtifactID
  content : String := ""
  filePath : String := ""
  response : Option GenerateResponse := none
  err : Option String := none
deriving DecidableEq, Repr

/-- Record of one provider invocation, so that theorems can speak about
which artifacts reached the external service and with what request. -/
structure GenCall where
  id : ArtifactID
  systemPrompt : String
  userMsg : String
  maxTokens : Nat
deriving DecidableEq, Repr

/-- Translated from `strings.ToLower(strings.TrimSpace(o))`, character-wise:
whitespace is dropped from both ends and every character lowercased. -/
def normalizeArtifactId (s : String) : String :=
  ⟨(((s.data.dropWhile Char.isWhitespace).reverse.dropWhile
      Char.isWhitespace).reverse).map Char.toLower⟩

/-- Translated from Pipeline.enabledArtifacts: an explicit allow-list
(case/whitespace-normalized) filters the fixed sequence; otherwise the
frontmatter toggles do. -/
def enabledArtifacts (only : List String) (cfg : List (String × Toggle)) :
    List ArtifactID :=
  if only.isEmpty then
    AllArtifacts.filter (fun id =>
      match cfg.lookup (artifactName id) with
      | some t => t.isEnabled
      | none => true)
  else
    let onlySet := only.map normalizeArtifactId
    AllArtifacts.filter (fun id => onlySet.contains (artifactName id))

/-- Translated from Pipeline.generateArtifact: dry-run placeholder, cache
skip (empty content, no call), or one provider invocation. -/
def generateArtifact (p : Pipeline) (id : ArtifactID) :
    ArtifactResult × List GenCall :=
  let sp := systemPromptFor id
  let um := userMessage p.inst p.ir p.opts.prevArtifacts id
  let fp := artifactPath p.inst id
  if p.opts.dryRun then
    (⟨id,
      "[dry-run] Would generate " ++ artifactName id ++ " (~" ++
        toString (estimateTokens (sp ++ um)) ++ " input tokens)",
      fp, none, none⟩, [])
  else if p.opts.skipArtifacts.contains id then
    (⟨id, "", fp, none, none⟩, [])
  else
    let call : GenCall := ⟨id, sp, um, maxTokensForArtifact id⟩
    match p.provider sp um (maxTokensForArtifact id) with
    | .error e => (⟨id, "", fp, none, some e⟩, [call])
    | .ok resp => (⟨id, resp.content, fp, some resp, none⟩, [call])

/-- Return value of Pipeline.Run: the collected results, the provider calls
made, and the overall error. -/
structure RunResult where
  results : List ArtifactResult
  calls : List GenCall
  err : Option String
deriving DecidableEq, Repr

/-- Translated from Pipeline.Run's fan-out set: the enabled artifacts other
than the changelog. -/
def parallelOf (p : Pipeline) : List ArtifactID :=
  (enabledArtifacts p.opts.only p.inst.artifacts).filter
    (fun id => !(id == ArtifactID.changelog))

/-- Results of the parallel phase (generateArtifact is pure, so listing the
results in launch order loses nothing; the Go collection order is
scheduler-dependent and no property below depends on it). -/
def parallelResultsOf (p : Pipeline) : List ArtifactResult :=
  (parallelOf p).map (fun id => (generateArtifact p id).1)

/-- Provider calls of the parallel phase. -/
def parallelCallsOf (p : Pipeline) : List GenCall :=
  ((parallelOf p).map (fun id => (generateArtifact p id).2)).flatten

/-- Translated from Pipeline.Run: the enabled non-changelog artifacts are
generated in the parallel phase, then the whole result set is checked for
errors, and only if none is found is the changelog generated. -/
def pipelineRun (p : Pipeline) : RunResult :=
  match (parallelResultsOf p).find? (fun r => r.err.isSome) with
  | some r =>
    ⟨parallelResultsOf p, parallelCallsOf p,
     some ("generating " ++ artifactName r.id ++ ": " ++ r.err.getD "")⟩
  | none =>
    if (enabledArtifacts p.opts.only p.inst.artifacts).contains ArtifactID.changelog then
      match ((generateArtifact p ArtifactID.changelog).1).err with
      | some e =>
        ⟨parallelResultsOf p ++ [(generateArtifact p ArtifactID.changelog).1],
         parallelCallsOf p ++ (generateArtifact p ArtifactID.changelog).2,
         some ("generating changelog: " ++ e)⟩
      | none =>
        ⟨parallelResultsOf p ++ [(generateArtifact p ArtifactID.changelog).1],
         parallelCallsOf p ++ (generateArtifact p ArtifactID.changelog).2, none⟩
    else ⟨parallelResultsOf p, parallelCallsOf p, none⟩

/-- Modelled from the spec: a LockFile entry — input hash, output hash and
model identifier (the cache package is absent from the snapshot; the entry's
timestamp is never consulted by any decision and is omitted). -/
structure FingerprintEntry where
  inputHash : String := ""
  outputHash : String := ""
  model : String := ""
deriving DecidableEq, Repr

/-- Modelled from the spec: `isUpToDate` — true iff a stored entry exists for
the artifact id with an exactly matching input hash. -/
def isUpToDate (lock : List (String × FingerprintEntry)) (id hash : String) :
    Bool :=
  match lock.lookup id with
  | some e => e.inputHash == hash
  | none => false

/-- Map update for the LockFile: replace the entry when the id exists,
append otherwise. -/
def setEntry : List (String × FingerprintEntry) → String → FingerprintEntry →
    List (String × FingerprintEntry)
  | [], k, e => [(k, e)]
  | (k', e') :: rest, k, e =>
    if k' = k then (k, e) :: rest else (k', e') :: setEntry rest k e

/-- Modelled from the spec: `updateEntry` overwrites or creates the stored
entry for an artifact id. -/
def updateEntry (lock : List (String × FingerprintEntry))
    (id inputHash outputHash model : String) :
    List (String × FingerprintEntry) :=
  setEntry lock id ⟨inputHash, outputHash, model⟩

/-- Modelled from the spec: `HashInput`, a cryptographic digest over the
serialized IR, the relevant instruction sections and the prompt text; the
digest is embedded as an injective tagging of its input bytes, since every
decision in the source consults only digest equality. -/
def hashInput (spec sections prompt : String) : String :=
  "sha256(" ++ spec ++ "\u001f" ++ sections ++ "\u001f" ++ prompt ++ ")"

/-- Modelled from the spec: `HashOutput`, a digest of the generated content. -/
def hashOutput (content : String) : String :=
  "sha256out(" ++ content ++ ")"

/-- Input-hash formula shared by the generate command's cache check, its
lockfile update loop and the diff command (all three call
`cache.HashInput(specContent, RelevantSections(id), SystemPromptFor(id))`). -/
def inputHashOf (inst : Instructions) (ir : IntermediateRepr)
    (id : ArtifactID) : String :=
  hashInput (serializeIR ir) (relevantSections inst.sections id) (systemPromptFor id)

/-- Modelled from the spec: PrependChangelogEntry joins the newly generated
entry ahead of the previous changelog body (an explicit merge). -/
def prependChangelogEntry (entry existing : String) : String :=
  if existing = "" then entry else entry ++ "\n\n" ++ existing

/-- Translated from the parsing loop of generate.writeScripts: fenced code
blocks labelled with a filename become script files. -/
def scriptsLoop : List String → Bool → String → List String →
    List (String × String)
  | [], _, _, _ => []
  | line :: rest, inBlock, currentFile, acc =>
    if line.startsWith "```" && !inBlock then
      scriptsLoop rest true ((line.drop 3).trim) []
    else if line == "```" && inBlock then
      (if currentFile = "" then []
       else [(currentFile, String.intercalate "\n" acc ++ "\n")]) ++
        scriptsLoop rest false "" []
    else if inBlock then
      scriptsLoop rest inBlock currentFile (acc ++ [line])
    else
      scriptsLoop rest inBlock currentFile acc

/-- Translated from generate.writeScripts: the script files parsed from the
generated content. -/
def parseScriptFiles (content : String) : List (String × String) :=
  scriptsLoop (content.splitOn "\n") false "" []

/-- Translated from generate.WriteResults: the files written for a result
list — failed or empty-content results are skipped, the scripts artifact is
split into its parsed script files, every other artifact is written at its
path.  Each write is tagged with the artifact id it belongs to. -/
def writeResults (outputDir : String) (results : List ArtifactResult) :
    List (ArtifactID × String × String) :=
  (results.map (fun r =>
    if r.err.isSome || r.content == "" then []
    else if r.id == ArtifactID.scripts then
      (parseScriptFiles r.content).map
        (fun fc => (r.id, outputDir ++ "/" ++ r.filePath ++ "/" ++ fc.1, fc.2))
    else [(r.id, outputDir ++ "/" ++ r.filePath, r.content)])).flatten

/-- Inputs of one invocation of the generate command, after instruction
parsing, source processing and lockfile loading (translated from runGenerate
in cmd/sc; prevArtifacts is the result of generate.LoadPreviousArtifacts). -/
structure GenState where
  provider : String → String → Nat → Except String GenerateResponse
  inst : Instructions
  ir : IntermediateRepr
  outputDir : String := ""
  only : List String := []
  force : Bool := false
  dryRun : Bool := false
  diffMode : Bool := false
  verbose : Bool := false
  prevArtifacts : List (ArtifactID × String) := []
  lock : List (String × FingerprintEntry) := []

/-- Translated from runGenerate's cache check: the artifacts whose stored
input hash matches the freshly computed one (empty when forcing or in a dry
run, where the check is bypassed). -/
def skipSetOf (st : GenState) : List ArtifactID :=
  if !st.force && !st.dryRun then
    AllArtifacts.filter (fun id =>
      isUpToDate st.lock (artifactName id) (inputHashOf st.inst st.ir id))
  else []

/-- Translated from runGenerate's cache check: all artifacts of the fixed
sequence are up to date (the loop ranges over generate.AllArtifacts). -/
def allUpToDateOf (st : GenState) : Bool :=
  (!st.force && !st.dryRun) &&
    AllArtifacts.all (fun id =>
      isUpToDate st.lock (artifactName id) (inputHashOf st.inst st.ir id))

/-- Translated from runGenerate: the pipeline value it builds. -/
def pipelineOf (st : GenState) : Pipeline :=
  ⟨st.provider, st.inst, st.ir,
   ⟨st.outputDir, st.only, st.force, st.dryRun, st.diffMode, st.verbose,
    st.prevArtifacts, skipSetOf st⟩⟩

/-- Observable outcome of one generate invocation: whether the all-up-to-date
short circuit fired, the results, the provider calls, the error, the files
written to the output directory, the lockfile content afterward and whether
the lockfile file was rewritten. -/
structure RunOutcome where
  shortCircuited : Bool := false
  results : List ArtifactResult := []
  calls : List GenCall := []
  error : Option String := none
  filesWritten : List (ArtifactID × String × String) := []
  lockAfter : List (String × FingerprintEntry) := []
  lockSaved : Bool := false
deriving DecidableEq, Repr

/-- Translated from runGenerate's changelog-append loop: a changelog result
with content gets the prepend merge with the previous changelog applied. -/
def rewriteChangelog (st : GenState) (results : List ArtifactResult) :
    List ArtifactResult :=
  results.map (fun r =>
    if r.id == ArtifactID.changelog && r.content != "" then
      { r with content := (prependChangelogEntry r.content
          ((st.prevArtifacts.lookup ArtifactID.changelog).getD "")) }
    else r)

/-- Translated from runGenerate's changelog-append loop: the extra write of
the merged changelog file. -/
def changelogWrites (st : GenState) (results : List ArtifactResult) :
    List (ArtifactID × String × String) :=
  (results.filter (fun r => r.id == ArtifactID.changelog && r.content != "")).map
    (fun r => (r.id, st.outputDir ++ "/" ++ r.filePath, r.content))

/-- Translated from runGenerate's lockfile update loop: every successful
non-empty result overwrites its entry with the freshly recomputed input hash,
the output hash of its content and the responding model. -/
def lockFoldUpdate (st : GenState) (results : List ArtifactResult) :
    List (String × FingerprintEntry) :=
  results.foldl (fun l r =>
    if r.err.isSome || r.content == "" then l
    else updateEntry l (artifactName r.id)
           (inputHashOf st.inst st.ir r.id) (hashOutput r.content)
           ((r.response.map GenerateResponse.model).getD "")) st.lock

/-- Translated from the tail of runGenerate on a fully successful run: write
artifacts, apply the changelog prepend merge and its extra write, update the
lockfile entries and save the lockfile. -/
def finalizeRun (st : GenState) (rr : RunResult) : RunOutcome :=
  ⟨false, rewriteChangelog st rr.results, rr.calls, none,
   writeResults st.outputDir rr.results ++
     changelogWrites st (rewriteChangelog st rr.results),
   lockFoldUpdate st (rewriteChangelog st rr.results), true⟩

/-- Translated from runGenerate in cmd/sc: short-circuit when every artifact
of the fixed sequence is cache-hit; otherwise run the pipeline; abort on any
error before writing anything; in dry-run and diff modes write nothing;
otherwise finalize (write artifacts, changelog prepend-merge, lockfile
update and save). -/
def runGenerate (st : GenState) : RunOutcome :=
  if allUpToDateOf st then
    ⟨true, [], [], none, [], st.lock, false⟩
  else
    match (pipelineRun (pipelineOf st)).err with
    | some e =>
      ⟨false, (pipelineRun (pipelineOf st)).results,
       (pipelineRun (pipelineOf st)).calls, some e, [], st.lock, false⟩
    | none =>
      if st.dryRun then
        ⟨false, (pipelineRun (pipelineOf st)).results,
         (pipelineRun (pipelineOf st)).calls, none, [], st.lock, false⟩
      else if st.diffMode then
        ⟨false, (pipelineRun (pipelineOf st)).results,
         (pipelineRun (pipelineOf st)).calls, none, [], st.lock, false⟩
      else finalizeRun st (pipelineRun (pipelineOf st))

/-- Inputs of one invocation of the diff command, after instruction parsing,
source processing and lockfile loading (translated from runDiff in cmd/sc). -/
structure DiffState where
  inst : Instructions
  ir : IntermediateRepr
  lock : List (String × FingerprintEntry) := []

/-- Observable outcome of the diff command's lockfile query: the drifted
artifact ids in fixed-sequence order, the lockfile afterward, and the
provider calls made (runDiff builds no provider at all). -/
structure DiffOutcome where
  drifted : List ArtifactID
  lockAfter : List (String × FingerprintEntry)
  calls : List GenCall
deriving DecidableEq, Repr

/-- Translated from runDiff in cmd/sc: recompute the input hash for every
artifact of the fixed sequence with the same formula as the generate
command and report the ids whose stored entry disagrees; the body never
generates and never writes the lockfile.  (The optional `--against`
directory comparison is file I/O outside this model.) -/
def runDiff (st : DiffState) : DiffOutcome :=
  ⟨AllArtifacts.filter (fun id =>
      !(isUpToDate st.lock (artifactName id) (inputHashOf st.inst st.ir id))),
   st.lock, []⟩

/-- Occurrence of a character list as a contiguous chunk of another. -/
def occursIn (needle : List Char) : List Char → Bool
  | [] => needle.isEmpty
  | c :: rest => needle.isPrefixOf (c :: rest) || occursIn needle rest

/-- Substring test used to state what a prompt does or does not contain. -/
def strContains (hay needle : String) : Bool :=
  occursIn needle.data hay.data

/-- Instructions fixture shared by concrete witness runs. -/
def wInst : Instructions := { name := "t", envPrefix := "T_" }

/-- IR fixture shared by concrete witness runs: the empty IR. -/
def wIR : IntermediateRepr := {}

/-- Provider fixture that fails every request. -/
def wProviderErr : String → String → Nat → Except String GenerateResponse :=
  fun _ _ _ => .error "boom"

/-- Provider fixture that answers every request with fixed content. -/
def wProviderOk : String → String → Nat → Except String GenerateResponse :=
  fun _ _ _ => .ok ⟨"GEN", "m", 1, 2⟩

/-- Provider fixture that answers the skill request with distinguished fresh
content and everything else with fixed content. -/
def wProviderSkill : String → String → Nat → Except String GenerateResponse :=
  fun sp _ _ =>
    if sp = SkillPrompt then .ok ⟨"FRESHSKILLCONTENT", "m", 0, 0⟩
    else .ok ⟨"GEN", "m", 0, 0⟩

/-- Generate-command state fixture: every provider call fails, empty lockfile. -/
def wStErr : GenState :=
  { provider := wProviderErr, inst := wInst, ir := wIR, outputDir := "out" }

/-- Generate-command state fixture: skill is cache-hit, the rest stale,
provider succeeds. -/
def wStSkip : GenState :=
  { provider := wProviderOk, inst := wInst, ir := wIR, outputDir := "out",
    lock := [(artifactName .skill, ⟨inputHashOf wInst wIR .skill, "", ""⟩)] }

/-- Generate-command state fixture: allow-list restricted to skill, skill
cache-hit, the stored entry for reference absent (stale). -/
def wStOnly : GenState :=
  { provider := wProviderOk, inst := wInst, ir := wIR, outputDir := "out",
    only := ["skill"],
    lock := [(artifactName .skill, ⟨inputHashOf wInst wIR .skill, "", ""⟩)] }

/-- Generate-command state fixture: every artifact of the fixed sequence is
cache-hit. -/
def wStAll : GenState :=
  { provider := wProviderOk, inst := wInst, ir := wIR, outputDir := "out",
    lock := AllArtifacts.map
      (fun id => (artifactName id, ⟨inputHashOf wInst wIR id, "", ""⟩)) }

/-- Previous-artifacts fixture: a stored skill document from the last run. -/
def wPrev3 : List (ArtifactID × String) := [(ArtifactID.skill, "OLDSKILLCONTENT")]

/-- Generate-command state fixture for the changelog claims: fresh skill
content this run, stored previous skill content, empty lockfile. -/
def wSt3 : GenState :=
  { provider := wProviderSkill, inst := wInst, ir := wIR, outputDir := "out",
    prevArtifacts := wPrev3 }

/-- Instructions fixture whose frontmatter disables the reference artifact. -/
def wInstNoRef : Instructions :=
  { name := "t", envPrefix := "T_", artifacts := [("reference", ⟨false, ""⟩)] }

/-- Diff-command state fixture: the reference artifact is disabled by its
frontmatter toggle and is the only stale artifact. -/
def wDiffDisabled : DiffState :=
  { inst := wInstNoRef, ir := wIR,
    lock := (AllArtifacts.filter (fun id => !(id == ArtifactID.reference))).map
      (fun id => (artifactName id, ⟨inputHashOf wInstNoRef wIR id, "", ""⟩)) }

/-- Diff-command state fixture: exactly the skill artifact is stale. -/
def wDiffOne : DiffState :=
  { inst := wInst, ir := wIR,
    lock := (AllArtifacts.filter (fun id => !(id == ArtifactID.skill))).map
      (fun id => (artifactName id, ⟨inputHashOf wInst wIR id, "", ""⟩)) }

/-- Plugin fixture: detects every source, fetches the source path, parses the
two distinguished raw strings into two distinct one-operation fragments, and
reports one warning naming the parsed fragment. -/
def wPlugin : SpecPlugin :=
  { name := "P",
    detect := fun _ => true,
    fetch := fun s => .ok s.path,
    parse := fun raw _ =>
      .ok (if raw = "1" then { operations := [{ opId := "a" }] }
           else { operations := [{ opId := "b" }] }),
    validate := fun ir => [⟨"w-" ++ String.intercalate "" (ir.operations.map Operation.opId), ""⟩] }

/-! ## Theorems -/

/-- Every artifact id is in the fixed sequence. -/
theorem mem_allArtifacts (id : ArtifactID) : id ∈ AllArtifacts := by
  cases id <;> simp [AllArtifacts]

/-- Failure of ProcessSources yields the literal `(nil, nil, err)` triple from
every exit of the loop. -/
theorem processLoop_err_nil (plugins : List SpecPlugin) :
    ∀ (sources : List SpecSource) (acc : IntermediateRepr) (ws : List Warning),
      (processLoop plugins acc ws sources).err.isSome →
      (processLoop plugins acc ws sources).ir = none ∧
      (processLoop plugins acc ws sources).warnings = []
  | [], _, _, h => by simp [processLoop] at h
  | src :: rest, acc, ws, h => by
    simp only [processLoop] at h ⊢
    cases hd : registryDetect plugins src with
    | error e => simp [hd]
    | ok plugin =>
      cases hf : plugin.fetch src with
      | error e => simp [hd, hf]
      | ok raw =>
        cases hp : plugin.parse raw src with
        | error e => simp [hd, hf, hp]
        | ok parsed =>
          simp only [hd, hf, hp] at h ⊢
          exact processLoop_err_nil plugins rest _ _ h

/-- C10: whenever processing the spec sources fails, ProcessSources returns a
nil IR and a nil warnings list along with the error — no partially merged IR
and no accumulated validation warnings reach the caller. -/
theorem processSources_failure_returns_nil (plugins : List SpecPlugin)
    (sources : List SpecSource)
    (h : (processSources plugins sources).err.isSome = true) :
    (processSources plugins sources).ir = none ∧
    (processSources plugins sources).warnings = [] :=
  processLoop_err_nil plugins sources _ _ h

/-- Witness: with no plugin registered, one source makes ProcessSources fail,
and the failing run exposes no IR and no warnings. -/
theorem processSources_failure_returns_nil_witness :
    (processSources [] [⟨"spec.yaml", "", ""⟩]).ir = none ∧
    (processSources [] [⟨"spec.yaml", "", ""⟩]).warnings = [] :=
  processSources_failure_returns_nil [] [⟨"spec.yaml", "", ""⟩] rfl

/-- First-match characterization of the registry's plugin selection. -/
theorem registryDetect_ok_iff (plugins : List SpecPlugin) (src : SpecSource)
    (p : SpecPlugin) :
    registryDetect plugins src = .ok p ↔
      p.detect src = true ∧
        ∃ pre post, plugins = pre ++ p :: post ∧ ∀ q ∈ pre, q.detect src = false := by
  unfold registryDetect
  cases hf : plugins.find? (fun q => q.detect src) with
  | none =>
    constructor
    · intro h; cases h
    · rintro ⟨hp, pre, post, rfl, -⟩
      have := List.find?_eq_none.mp hf p (by simp)
      simp [hp] at this
  | some q =>
    constructor
    · intro h
      injection h with h
      subst h
      obtain ⟨hp, pre, post, hsplit, hpre⟩ := List.find?_eq_some.mp hf
      exact ⟨hp, pre, post, hsplit, fun a ha => by simpa using hpre a ha⟩
    · rintro ⟨hp, pre, post, rfl, hpre⟩
      have : (pre ++ p :: post).find? (fun q => q.detect src) = some p :=
        List.find?_eq_some.mpr ⟨hp, pre, post, rfl, fun a ha => by simp [hpre a ha]⟩
      rw [hf] at this
      injection this with this
      rw [this]

/-- Any failing source makes the processing loop fail, from any accumulator. -/
theorem processLoop_fails (plugins : List SpecPlugin) :
    ∀ (sources : List SpecSource) (acc : IntermediateRepr) (ws : List Warning),
      (∃ src ∈ sources, sourceStepFails plugins src = true) →
      (processLoop plugins acc ws sources).err.isSome = true ∧
      (processLoop plugins acc ws sources).ir = none
  | [], _, _, h => by simp at h
  | s :: rest, acc, ws, h => by
    obtain ⟨src, hm, hfail⟩ := h
    simp only [processLoop]
    cases hd : registryDetect plugins s with
    | error e => simp [hd]
    | ok plugin =>
      cases hf : plugin.fetch s with
      | error e => simp [hd, hf]
      | ok raw =>
        cases hp : plugin.parse raw s with
        | error e => simp [hd, hf, hp]
        | ok parsed =>
          simp only [hd, hf, hp]
          rcases List.mem_cons.mp hm with rfl | hm'
          · simp [sourceStepFails, hd, hf, hp] at hfail
          · exact processLoop_fails plugins rest _ _ ⟨src, hm', hfail⟩

/-- When every source succeeds, the loop succeeds and its warnings are the
starting warnings followed by each source's validation warnings in order. -/
theorem processLoop_ok (plugins : List SpecPlugin) :
    ∀ (sources : List SpecSource) (acc : IntermediateRepr) (ws : List Warning),
      (∀ src ∈ sources, sourceStepFails plugins src = false) →
      (processLoop plugins acc ws sources).err = none ∧
      (processLoop plugins acc ws sources).warnings =
        ws ++ sources.flatMap (sourceWarnings plugins)
  | [], _, _, _ => by simp [processLoop]
  | s :: rest, acc, ws, h => by
    have hs := h s (by simp)
    simp only [processLoop]
    cases hd : registryDetect plugins s with
    | error e => simp [sourceStepFails, hd] at hs
    | ok plugin =>
      cases hf : plugin.fetch s with
      | error e => simp [sourceStepFails, hd, hf] at hs
      | ok raw =>
        cases hp : plugin.parse raw s with
        | error e => simp [sourceStepFails, hd, hf, hp] at hs
        | ok parsed =>
          simp only [hd, hf, hp]
          have ih := processLoop_ok plugins rest (acc.merge parsed)
            (ws ++ plugin.validate parsed) (fun src hm => h src (by simp [hm]))
          refine ⟨ih.1, ?_⟩
          rw [ih.2]
          simp [sourceWarnings, hd, hf, hp]

/-- C7: the registry selects the first registered plugin whose detect accepts
the source; processing fails fast when any source matches zero plugins or its
fetch or parse fails; and on success the validation warnings of all sources
accumulate in caller order. -/
theorem registry_selection_failfast_warnings :
    (∀ (plugins : List SpecPlugin) (src : SpecSource) (p : SpecPlugin),
      registryDetect plugins src = .ok p ↔
        p.detect src = true ∧
          ∃ pre post, plugins = pre ++ p :: post ∧
            ∀ q ∈ pre, q.detect src = false) ∧
    (∀ (plugins : List SpecPlugin) (sources : List SpecSource),
      (∃ src ∈ sources, sourceStepFails plugins src = true) →
        (processSources plugins sources).err.isSome = true ∧
        (processSources plugins sources).ir = none) ∧
    (∀ (plugins : List SpecPlugin) (sources : List SpecSource),
      (∀ src ∈ sources, sourceStepFails plugins src = false) →
        (processSources plugins sources).err = none ∧
        (processSources plugins sources).warnings =
          sources.flatMap (sourceWarnings plugins)) := by
  refine ⟨registryDetect_ok_iff, ?_, ?_⟩
  · intro plugins sources h
    exact processLoop_fails plugins sources _ _ h
  · intro plugins sources h
    have := processLoop_ok plugins sources ⟨[], [], [], [], []⟩ [] h
    simpa [processSources] using this

/-- C6: merging the fragments of the source list [A, B] in caller order makes
the operations sequence A's operations followed by B's, and likewise appends
the types, auth schemes and groups. -/
theorem processSources_pair_appends
    (plugins : List SpecPlugin) (s1 s2 : SpecSource) (p1 p2 : SpecPlugin)
    (raw1 raw2 : String) (A B : IntermediateRepr)
    (h1 : registryDetect plugins s1 = .ok p1) (h2 : p1.fetch s1 = .ok raw1)
    (h3 : p1.parse raw1 s1 = .ok A)
    (h4 : registryDetect plugins s2 = .ok p2) (h5 : p2.fetch s2 = .ok raw2)
    (h6 : p2.parse raw2 s2 = .ok B) :
    ∃ ir, (processSources plugins [s1, s2]).ir = some ir ∧
      ir.operations = A.operations ++ B.operations ∧
      ir.types = A.types ++ B.types ∧
      ir.auth = A.auth ++ B.auth ∧
      ir.groups = A.groups ++ B.groups := by
  have hrun : (processSources plugins [s1, s2]).ir =
      some (((⟨[], [], [], [], []⟩ : IntermediateRepr).merge A).merge B) := by
    simp [processSources, processLoop, h1, h2, h3, h4, h5, h6]
  exact ⟨((⟨[], [], [], [], []⟩ : IntermediateRepr).merge A).merge B, hrun,
    by simp [IntermediateRepr.merge], by simp [IntermediateRepr.merge],
    by simp [IntermediateRepr.merge], by simp [IntermediateRepr.merge]⟩

/-- Witness: a concrete one-plugin registry over two sources yields the
concatenated operation list. -/
theorem processSources_pair_appends_witness :
    ∃ ir, (processSources [wPlugin] [⟨"1", "", ""⟩, ⟨"2", "", ""⟩]).ir = some ir ∧
      ir.operations =
        ({ operations := [{ opId := "a" }] } : IntermediateRepr).operations ++
        ({ operations := [{ opId := "b" }] } : IntermediateRepr).operations ∧
      ir.types =
        ({ operations := [{ opId := "a" }] } : IntermediateRepr).types ++
        ({ operations := [{ opId := "b" }] } : IntermediateRepr).types ∧
      ir.auth =
        ({ operations := [{ opId := "a" }] } : IntermediateRepr).auth ++
        ({ operations := [{ opId := "b" }] } : IntermediateRepr).auth ∧
      ir.groups =
        ({ operations := [{ opId := "a" }] } : IntermediateRepr).groups ++
        ({ operations := [{ opId := "b" }] } : IntermediateRepr).groups :=
  processSources_pair_appends [wPlugin] ⟨"1", "", ""⟩ ⟨"2", "", ""⟩ wPlugin wPlugin
    "1" "2" { operations := [{ opId := "a" }] } { operations := [{ opId := "b" }] }
    rfl rfl rfl rfl rfl rfl

/-- C1: the hash input built from the instruction sections is NOT independent
of internal map ordering — the same Sections map, iterated in two different
orders (both orders a Go map may produce across two runs), yields two
different section strings for the skill artifact, so the computed input hash
differs between the runs. -/
theorem relevantSections_iteration_order_dependent :
    ([("A", "a"), ("B", "b")] : List (String × String)).Perm
        [("B", "b"), ("A", "a")] ∧
    relevantSections [("A", "a"), ("B", "b")] ArtifactID.skill ≠
      relevantSections [("B", "b"), ("A", "a")] ArtifactID.skill := by
  constructor
  · exact List.Perm.swap ("B", "b") ("A", "a") []
  · decide

/-- C9: the enabled set is always a subsequence of the fixed artifact
sequence; with a non-empty allow-list an artifact is enabled exactly when its
id appears in the case/whitespace-normalized allow-list, and otherwise exactly
when its frontmatter toggle (if any) does not disable it. -/
theorem enabledArtifacts_characterization :
    ∀ (only : List String) (cfg : List (String × Toggle)) (id : ArtifactID),
      (enabledArtifacts only cfg).Sublist AllArtifacts ∧
      (only ≠ [] →
        (id ∈ enabledArtifacts only cfg ↔
          artifactName id ∈ only.map normalizeArtifactId)) ∧
      (only = [] →
        (id ∈ enabledArtifacts only cfg ↔
          ∀ t, cfg.lookup (artifactName id) = some t → t.isEnabled = true)) := by
  intro only cfg id
  refine ⟨?_, ?_, ?_⟩
  · unfold enabledArtifacts
    split
    · exact List.filter_sublist _
    · exact List.filter_sublist _
  · intro hne
    have hemp : only.isEmpty = false := by
      cases only with
      | nil => exact absurd rfl hne
      | cons a l => rfl
    simp only [enabledArtifacts, hemp, Bool.false_eq_true, if_false]
    rw [List.mem_filter]
    simp [mem_allArtifacts id, List.elem_iff]
  · intro he
    subst he
    simp only [enabledArtifacts, List.isEmpty_nil, if_true]
    rw [List.mem_filter]
    simp only [mem_allArtifacts id, true_and]
    cases hl : cfg.lookup (artifactName id) with
    | none => simp
    | some t =>
      constructor
      · intro ht t' ht'
        injection ht' with ht'
        subst ht'
        simpa using ht
      · intro h
        simpa using h t rfl

/-- The result record of one artifact generation carries that artifact's id. -/
theorem generateArtifact_fst_id (p : Pipeline) (id : ArtifactID) :
    ((generateArtifact p id).1).id = id := by
  simp only [generateArtifact]
  split
  · rfl
  · split
    · rfl
    · split <;> rfl

/-- Every provider call of one artifact generation carries that artifact's id. -/
theorem generateArtifact_snd_id (p : Pipeline) (id : ArtifactID) :
    ∀ c ∈ (generateArtifact p id).2, c.id = id := by
  intro c hc
  simp only [generateArtifact] at hc
  split at hc
  · simp at hc
  · split at hc
    · simp at hc
    · split at hc <;> (simp at hc; rw [hc])

/-- A non-member is not contained (Bool form). -/
theorem contains_eq_false_of_not_mem {α : Type} [BEq α] [LawfulBEq α]
    {l : List α} {a : α} (h : a ∉ l) : l.contains a = false := by
  cases hc : l.contains a
  · rfl
  · exact absurd (List.elem_iff.mp hc) h

/-- A stale artifact is never in the skip set, whatever the flags. -/
theorem skip_contains_false (st : GenState) (id : ArtifactID)
    (h : isUpToDate st.lock (artifactName id) (inputHashOf st.inst st.ir id) = false) :
    (skipSetOf st).contains id = false := by
  unfold skipSetOf
  split
  · refine contains_eq_false_of_not_mem (fun hmem => ?_)
    have := (List.mem_filter.mp hmem).2
    simp [h] at this
  · rfl

/-- One stale artifact refutes the all-up-to-date check. -/
theorem allUpToDateOf_eq_false (st : GenState) (id : ArtifactID)
    (h : isUpToDate st.lock (artifactName id) (inputHashOf st.inst st.ir id) = false) :
    allUpToDateOf st = false := by
  unfold allUpToDateOf
  cases hforce : st.force
  · cases hdry : st.dryRun
    · simp only [hforce, hdry, Bool.not_false, Bool.and_self, Bool.true_and]
      exact List.all_eq_false.mpr ⟨id, mem_allArtifacts id, by simp [h]⟩
    · simp [hdry]
  · simp [hforce]

/-- The parallel fan-out set never holds the changelog. -/
theorem parallelOf_ne_changelog (p : Pipeline) :
    ∀ id ∈ parallelOf p, id ≠ ArtifactID.changelog := by
  intro id hid
  have := (List.mem_filter.mp hid).2
  simpa using this

/-- Every parallel-phase result is for a non-changelog artifact. -/
theorem parallelResults_ne_changelog (p : Pipeline) :
    ∀ r ∈ parallelResultsOf p, r.id ≠ ArtifactID.changelog := by
  intro r hr
  obtain ⟨id, hid, rfl⟩ := List.mem_map.mp hr
  rw [generateArtifact_fst_id]
  exact parallelOf_ne_changelog p id hid

/-- Every parallel-phase provider call is for a non-changelog artifact. -/
theorem parallelCalls_ne_changelog (p : Pipeline) :
    ∀ c ∈ parallelCallsOf p, c.id ≠ ArtifactID.changelog := by
  intro c hc
  obtain ⟨l, hl, hcl⟩ := List.mem_flatten.mp hc
  obtain ⟨id, hid, rfl⟩ := List.mem_map.mp hl
  rw [generateArtifact_snd_id p id c hcl]
  exact parallelOf_ne_changelog p id hid

/-- When some parallel result failed, Pipeline.Run stops with the parallel
results and calls and an error. -/
theorem pipelineRun_of_parallel_error (p : Pipeline)
    (h : ∃ r ∈ parallelResultsOf p, r.err.isSome = true) :
    ∃ m, pipelineRun p = ⟨parallelResultsOf p, parallelCallsOf p, some m⟩ := by
  have : ((parallelResultsOf p).find? (fun r => r.err.isSome)).isSome :=
    List.find?_isSome.mpr h
  obtain ⟨r0, hr0⟩ := Option.isSome_iff_exists.mp this
  refine ⟨"generating " ++ artifactName r0.id ++ ": " ++ r0.err.getD "", ?_⟩
  simp [pipelineRun, hr0]

/-- Generation of a stale enabled artifact whose provider call fails reaches
the provider and returns a failed result. -/
theorem generateArtifact_of_provider_error (st : GenState) (id : ArtifactID)
    (e : String)
    (hdry : st.dryRun = false)
    (hstale : isUpToDate st.lock (artifactName id) (inputHashOf st.inst st.ir id) = false)
    (hprov : st.provider (systemPromptFor id)
        (userMessage st.inst st.ir st.prevArtifacts id)
        (maxTokensForArtifact id) = .error e) :
    generateArtifact (pipelineOf st) id =
      (⟨id, "", artifactPath st.inst id, none, some e⟩,
       [⟨id, systemPromptFor id, userMessage st.inst st.ir st.prevArtifacts id,
         maxTokensForArtifact id⟩]) := by
  simp only [generateArtifact, pipelineOf]
  rw [hdry, skip_contains_false st id hstale, hprov]
  simp

/-- C2: if any parallel artifact generation fails, the run aborts — the
changelog never reaches the provider and never yields a result, no file is
written, no lockfile entry is updated and the lockfile is not saved. -/
theorem parallel_failure_all_or_nothing (st : GenState) (id : ArtifactID)
    (e : String)
    (hdry : st.dryRun = false)
    (hmem : id ∈ enabledArtifacts st.only st.inst.artifacts)
    (hnc : id ≠ ArtifactID.changelog)
    (hstale : isUpToDate st.lock (artifactName id) (inputHashOf st.inst st.ir id) = false)
    (hprov : st.provider (systemPromptFor id)
        (userMessage st.inst st.ir st.prevArtifacts id)
        (maxTokensForArtifact id) = .error e) :
    (runGenerate st).error.isSome = true ∧
    (∀ c ∈ (runGenerate st).calls, c.id ≠ ArtifactID.changelog) ∧
    (∀ r ∈ (runGenerate st).results, r.id ≠ ArtifactID.changelog) ∧
    (runGenerate st).filesWritten = [] ∧
    (runGenerate st).lockAfter = st.lock ∧
    (runGenerate st).lockSaved = false := by
  have hallup := allUpToDateOf_eq_false st id hstale
  have hgen := generateArtifact_of_provider_error st id e hdry hstale hprov
  have hmemp : id ∈ parallelOf (pipelineOf st) := by
    refine List.mem_filter.mpr ⟨?_, by simp [hnc]⟩
    simpa [pipelineOf] using hmem
  have hrmem : (⟨id, "", artifactPath st.inst id, none, some e⟩ : ArtifactResult) ∈
      parallelResultsOf (pipelineOf st) := by
    have h0 : ((generateArtifact (pipelineOf st) id).1) ∈
        parallelResultsOf (pipelineOf st) := by
      unfold parallelResultsOf
      exact List.mem_map_of_mem _ hmemp
    rw [hgen] at h0
    exact h0
  obtain ⟨m, hm⟩ := pipelineRun_of_parallel_error (pipelineOf st)
    ⟨_, hrmem, rfl⟩
  have hrun : runGenerate st =
      ⟨false, parallelResultsOf (pipelineOf st), parallelCallsOf (pipelineOf st),
       some m, [], st.lock, false⟩ := by
    simp [runGenerate, hallup, hm]
  rw [hrun]
  exact ⟨rfl, parallelCalls_ne_changelog _, parallelResults_ne_changelog _,
    rfl, rfl, rfl⟩

/-- Witness: with an empty lockfile and a provider that fails every request,
the run aborts with no writes and no lockfile change. -/
theorem parallel_failure_all_or_nothing_witness :
    (runGenerate wStErr).error.isSome = true ∧
    (∀ c ∈ (runGenerate wStErr).calls, c.id ≠ ArtifactID.changelog) ∧
    (∀ r ∈ (runGenerate wStErr).results, r.id ≠ ArtifactID.changelog) ∧
    (runGenerate wStErr).filesWritten = [] ∧
    (runGenerate wStErr).lockAfter = wStErr.lock ∧
    (runGenerate wStErr).lockSaved = false :=
  parallel_failure_all_or_nothing wStErr ArtifactID.skill "boom"
    rfl (by decide) (by decide) rfl rfl

/-- Artifact ids have pairwise distinct names. -/
theorem artifactName_inj {a b : ArtifactID} (h : artifactName a = artifactName b) :
    a = b := by
  cases a <;> cases b <;> first | rfl | exact absurd h (by decide)

/-- Updating one lockfile key leaves every other key's entry unchanged. -/
theorem lookup_setEntry_ne (l : List (String × FingerprintEntry)) (k k' : String)
    (e : FingerprintEntry) (h : k ≠ k') :
    List.lookup k (setEntry l k' e) = List.lookup k l := by
  have hb : (k == k') = false := beq_eq_false_iff_ne.mpr h
  induction l with
  | nil => simp [setEntry, List.lookup, hb]
  | cons x rest ih =>
    obtain ⟨xk, xe⟩ := x
    simp only [setEntry]
    split
    · rename_i hx
      subst hx
      simp [List.lookup, hb]
    · cases hxk : k == xk <;> simp [List.lookup, hxk, ih]

/-- The lockfile update fold leaves a key's entry unchanged when no updated
result bears that key (generalized over the starting lockfile). -/
theorem lookup_foldUpd_ne (inst : Instructions) (ir : IntermediateRepr) (k : String) :
    ∀ (results : List ArtifactResult) (init : List (String × FingerprintEntry)),
      (∀ r ∈ results, (r.err.isSome || r.content == "") = false →
        artifactName r.id ≠ k) →
      List.lookup k (results.foldl (fun l r =>
        if r.err.isSome || r.content == "" then l
        else updateEntry l (artifactName r.id)
               (inputHashOf inst ir r.id) (hashOutput r.content)
               ((r.response.map GenerateResponse.model).getD "")) init) =
        List.lookup k init
  | [], _, _ => rfl
  | r :: rest, init, hall => by
    simp only [List.foldl]
    cases hc : (r.err.isSome || r.content == "")
    · rw [if_neg (by simp [hc])]
      rw [lookup_foldUpd_ne inst ir k rest _
        (fun r' hr' => hall r' (List.mem_cons_of_mem _ hr'))]
      exact lookup_setEntry_ne init k (artifactName r.id) _
        (Ne.symm (hall r (List.mem_cons_self _ _) hc))
    · rw [if_pos (by simp [hc])]
      exact lookup_foldUpd_ne inst ir k rest _
        (fun r' hr' => hall r' (List.mem_cons_of_mem _ hr'))

/-- The lockfile update loop leaves a key's entry unchanged when no updated
result bears that key. -/
theorem lookup_lockFoldUpdate_ne (st : GenState) (results : List ArtifactResult)
    (k : String)
    (h : ∀ r ∈ results, (r.err.isSome || r.content == "") = false →
      artifactName r.id ≠ k) :
    List.lookup k (lockFoldUpdate st results) = List.lookup k st.lock :=
  lookup_foldUpd_ne st.inst st.ir k results st.lock h

/-- Every parallel-phase result comes from generating an enabled
non-changelog artifact. -/
theorem parallelResults_mem_enabled (p : Pipeline) :
    ∀ r ∈ parallelResultsOf p,
      ∃ i ∈ enabledArtifacts p.opts.only p.inst.artifacts,
        i ≠ ArtifactID.changelog ∧ r = (generateArtifact p i).1 := by
  intro r hr
  obtain ⟨i, hi, rfl⟩ := List.mem_map.mp hr
  have h2 := List.mem_filter.mp hi
  exact ⟨i, h2.1, by simpa using h2.2, rfl⟩

/-- Every result of Pipeline.Run comes from generating an enabled artifact. -/
theorem pipelineRun_results_mem (p : Pipeline) :
    ∀ r ∈ (pipelineRun p).results,
      ∃ i ∈ enabledArtifacts p.opts.only p.inst.artifacts,
        r = (generateArtifact p i).1 := by
  intro r hr
  cases hfind : (parallelResultsOf p).find? (fun x => x.err.isSome) with
  | some r0 =>
    simp only [pipelineRun, hfind] at hr
    obtain ⟨i, hi, _, he⟩ := parallelResults_mem_enabled p r hr
    exact ⟨i, hi, he⟩
  | none =>
    simp only [pipelineRun, hfind] at hr
    cases hcl : (enabledArtifacts p.opts.only p.inst.artifacts).contains
        ArtifactID.changelog
    · simp only [hcl, Bool.false_eq_true, if_false] at hr
      obtain ⟨i, hi, _, he⟩ := parallelResults_mem_enabled p r hr
      exact ⟨i, hi, he⟩
    · simp only [hcl, if_true] at hr
      have hclmem : ArtifactID.changelog ∈
          enabledArtifacts p.opts.only p.inst.artifacts := List.elem_iff.mp hcl
      cases hce : ((generateArtifact p ArtifactID.changelog).1).err with
      | some e =>
        simp only [hce] at hr
        rcases List.mem_append.mp hr with hpar | hone
        · obtain ⟨i, hi, _, he⟩ := parallelResults_mem_enabled p r hpar
          exact ⟨i, hi, he⟩
        · simp at hone
          exact ⟨ArtifactID.changelog, hclmem, hone⟩
      | none =>
        simp only [hce] at hr
        rcases List.mem_append.mp hr with hpar | hone
        · obtain ⟨i, hi, _, he⟩ := parallelResults_mem_enabled p r hpar
          exact ⟨i, hi, he⟩
        · simp at hone
          exact ⟨ArtifactID.changelog, hclmem, hone⟩

/-- Every provider call of Pipeline.Run belongs to generating an enabled
artifact. -/
theorem pipelineRun_calls_mem (p : Pipeline) :
    ∀ c ∈ (pipelineRun p).calls,
      ∃ i ∈ enabledArtifacts p.opts.only p.inst.artifacts,
        c ∈ (generateArtifact p i).2 := by
  have hpar : ∀ c ∈ parallelCallsOf p,
      ∃ i ∈ enabledArtifacts p.opts.only p.inst.artifacts,
        c ∈ (generateArtifact p i).2 := by
    intro c hc
    obtain ⟨l, hl, hcl⟩ := List.mem_flatten.mp hc
    obtain ⟨i, hi, rfl⟩ := List.mem_map.mp hl
    exact ⟨i, (List.mem_filter.mp hi).1, hcl⟩
  intro c hc
  cases hfind : (parallelResultsOf p).find? (fun x => x.err.isSome) with
  | some r0 =>
    simp only [pipelineRun, hfind] at hc
    exact hpar c hc
  | none =>
    simp only [pipelineRun, hfind] at hc
    cases hcl : (enabledArtifacts p.opts.only p.inst.artifacts).contains
        ArtifactID.changelog
    · simp only [hcl, Bool.false_eq_true, if_false] at hc
      exact hpar c hc
    · simp only [hcl, if_true] at hc
      have hclmem : ArtifactID.changelog ∈
          enabledArtifacts p.opts.only p.inst.artifacts := List.elem_iff.mp hcl
      cases hce : ((generateArtifact p ArtifactID.changelog).1).err with
      | some e =>
        simp only [hce] at hc
        rcases List.mem_append.mp hc with h | h
        · exact hpar c h
        · exact ⟨ArtifactID.changelog, hclmem, h⟩
      | none =>
        simp only [hce] at hc
        rcases List.mem_append.mp hc with h | h
        · exact hpar c h
        · exact ⟨ArtifactID.changelog, hclmem, h⟩

/-- A cache-hit artifact is in the skip set on a plain (no force, no dry-run)
invocation. -/
theorem skip_contains_true (st : GenState) (id : ArtifactID)
    (hforce : st.force = false) (hdry : st.dryRun = false)
    (hup : isUpToDate st.lock (artifactName id) (inputHashOf st.inst st.ir id) = true) :
    (skipSetOf st).contains id = true := by
  unfold skipSetOf
  rw [hforce, hdry]
  simp only [Bool.not_false, Bool.and_self, if_true]
  exact List.elem_iff.mpr (List.mem_filter.mpr ⟨mem_allArtifacts id, hup⟩)

/-- Generating a skipped artifact returns the empty-content, no-error result
without any provider call. -/
theorem generateArtifact_skip (st : GenState) (id : ArtifactID)
    (hdry : st.dryRun = false)
    (hskip : (skipSetOf st).contains id = true) :
    generateArtifact (pipelineOf st) id =
      (⟨id, "", artifactPath st.inst id, none, none⟩, []) := by
  simp only [generateArtifact, pipelineOf]
  rw [hdry, hskip]
  simp

/-- On an error-free run, every enabled artifact has its generation result in
the result set. -/
theorem pipelineRun_result_of_enabled (p : Pipeline) (id : ArtifactID)
    (hmem : id ∈ enabledArtifacts p.opts.only p.inst.artifacts)
    (herr : (pipelineRun p).err = none) :
    (generateArtifact p id).1 ∈ (pipelineRun p).results := by
  cases hfind : (parallelResultsOf p).find? (fun x => x.err.isSome) with
  | some r0 => simp [pipelineRun, hfind] at herr
  | none =>
    by_cases hid : id = ArtifactID.changelog
    · subst hid
      cases hce : ((generateArtifact p ArtifactID.changelog).1).err with
      | some e => simp [pipelineRun, hfind, hmem, hce] at herr
      | none => simp [pipelineRun, hfind, hmem, hce]
    · have hpar : id ∈ parallelOf p :=
        List.mem_filter.mpr ⟨hmem, by simp [hid]⟩
      have hmm : (generateArtifact p id).1 ∈ parallelResultsOf p := by
        unfold parallelResultsOf
        exact List.mem_map_of_mem _ hpar
      by_cases hcl : ArtifactID.changelog ∈ enabledArtifacts p.opts.only p.inst.artifacts
      · cases hce : ((generateArtifact p ArtifactID.changelog).1).err with
        | some e => simp [pipelineRun, hfind, hcl, hce] at herr
        | none => simp [pipelineRun, hfind, hcl, hce, hmm]
      · simp [pipelineRun, hfind, hcl, hmm]

/-- Every file WriteResults writes is tagged with the id of a result whose
content is non-empty and whose error is nil. -/
theorem writeResults_tag (outputDir : String) (results : List ArtifactResult) :
    ∀ w ∈ writeResults outputDir results,
      ∃ r ∈ results, w.1 = r.id ∧ r.content ≠ "" ∧ r.err = none := by
  intro w hw
  unfold writeResults at hw
  obtain ⟨l, hl, hwl⟩ := List.mem_flatten.mp hw
  obtain ⟨r, hr, rfl⟩ := List.mem_map.mp hl
  refine ⟨r, hr, ?_⟩
  cases hc : (r.err.isSome || r.content == "")
  · rw [if_neg (by simp [hc])] at hwl
    have hcontent : r.content ≠ "" := by
      intro hcc
      simp [hcc] at hc
    have herr : r.err = none := by
      cases he : r.err
      · rfl
      · simp [he] at hc
    cases hscr : (r.id == ArtifactID.scripts)
    · rw [if_neg (by simp [hscr])] at hwl
      simp at hwl
      exact ⟨by rw [hwl], hcontent, herr⟩
    · rw [if_pos (by simp_all)] at hwl
      obtain ⟨fc, _, rfl⟩ := List.mem_map.mp hwl
      exact ⟨rfl, hcontent, herr⟩
  · rw [if_pos (by simp [hc])] at hwl
    simp at hwl

/-- Every extra changelog write is tagged with a result of the rewritten set
whose id is the changelog and whose content is non-empty. -/
theorem changelogWrites_tag (st : GenState) (results : List ArtifactResult) :
    ∀ w ∈ changelogWrites st results,
      ∃ r ∈ results, w.1 = r.id ∧ r.id = ArtifactID.changelog ∧ r.content ≠ "" := by
  intro w hw
  unfold changelogWrites at hw
  obtain ⟨r, hr, rfl⟩ := List.mem_map.mp hw
  have hp := (List.mem_filter.mp hr).2
  have hid : r.id = ArtifactID.changelog := by
    have := Bool.and_elim_left hp
    simpa using this
  have hcont : r.content ≠ "" := by
    have := Bool.and_elim_right hp
    simpa using this
  exact ⟨r, (List.mem_filter.mp hr).1, rfl, hid, hcont⟩

/-- Every rewritten result stems from an original result with the same id and
error, and the rewrite leaves empty-content results untouched. -/
theorem rewriteChangelog_mem (st : GenState) (results : List ArtifactResult) :
    ∀ r2 ∈ rewriteChangelog st results,
      ∃ r ∈ results, r2.id = r.id ∧ r2.err = r.err ∧
        (r.content = "" → r2 = r) := by
  intro r2 hr2
  unfold rewriteChangelog at hr2
  obtain ⟨r, hr, rfl⟩ := List.mem_map.mp hr2
  refine ⟨r, hr, ?_⟩
  cases hc : (r.id == ArtifactID.changelog && r.content != "")
  · rw [if_neg (by simp [hc])]
    exact ⟨rfl, rfl, fun _ => rfl⟩
  · rw [if_pos (by simp [hc])]
    refine ⟨rfl, rfl, fun hcc => ?_⟩
    have := Bool.and_elim_right hc
    simp [hcc] at this

/-- C4: a cache-hit enabled artifact is skipped — the provider is never
called for it, it yields a non-error empty-content result, no file of the
run is written for it, and its lockfile entry is left untouched. -/
theorem cache_skip_semantics (st : GenState) (id : ArtifactID)
    (hforce : st.force = false) (hdry : st.dryRun = false)
    (hmem : id ∈ enabledArtifacts st.only st.inst.artifacts)
    (hup : isUpToDate st.lock (artifactName id) (inputHashOf st.inst st.ir id) = true)
    (hsc : (runGenerate st).shortCircuited = false)
    (herr : (runGenerate st).error = none) :
    (∀ c ∈ (runGenerate st).calls, c.id ≠ id) ∧
    (∃ r ∈ (runGenerate st).results, r.id = id ∧ r.err = none ∧ r.content = "") ∧
    (∀ w ∈ (runGenerate st).filesWritten, w.1 ≠ id) ∧
    List.lookup (artifactName id) (runGenerate st).lockAfter =
      List.lookup (artifactName id) st.lock := by
  have hskipc := skip_contains_true st id hforce hdry hup
  have hga := generateArtifact_skip st id hdry hskipc
  have hallup : allUpToDateOf st = false := by
    cases hau : allUpToDateOf st
    · rfl
    · simp [runGenerate, hau] at hsc
  have hrrerr : (pipelineRun (pipelineOf st)).err = none := by
    cases he : (pipelineRun (pipelineOf st)).err with
    | none => rfl
    | some m =>
      have hx : (runGenerate st).error = some m := by
        simp [runGenerate, hallup, he]
      rw [hx] at herr
      cases herr
  have hresmem : (⟨id, "", artifactPath st.inst id, none, none⟩ : ArtifactResult) ∈
      (pipelineRun (pipelineOf st)).results := by
    have h0 := pipelineRun_result_of_enabled (pipelineOf st) id hmem hrrerr
    rw [hga] at h0
    exact h0
  have hA1 : ∀ c ∈ (pipelineRun (pipelineOf st)).calls, c.id ≠ id := by
    intro c hc
    obtain ⟨i, _, hci⟩ := pipelineRun_calls_mem (pipelineOf st) c hc
    by_cases hii : i = id
    · subst hii
      rw [hga] at hci
      simp at hci
    · rw [generateArtifact_snd_id (pipelineOf st) i c hci]
      exact hii
  have hA2 : ∀ r ∈ (pipelineRun (pipelineOf st)).results, r.id = id →
      r = ⟨id, "", artifactPath st.inst id, none, none⟩ := by
    intro r hr hrid
    obtain ⟨i, _, rfl⟩ := pipelineRun_results_mem (pipelineOf st) r hr
    rw [generateArtifact_fst_id] at hrid
    subst hrid
    rw [hga]
  by_cases hdiff : st.diffMode = true
  · have hrun : runGenerate st =
        ⟨false, (pipelineRun (pipelineOf st)).results,
         (pipelineRun (pipelineOf st)).calls, none, [], st.lock, false⟩ := by
      simp [runGenerate, hallup, hrrerr, hdry, hdiff]
    rw [hrun]
    exact ⟨hA1, ⟨_, hresmem, rfl, rfl, rfl⟩, by simp, rfl⟩
  · have hrun : runGenerate st = finalizeRun st (pipelineRun (pipelineOf st)) := by
      simp [runGenerate, hallup, hrrerr, hdry, hdiff]
    rw [hrun]
    have hskipmem : (⟨id, "", artifactPath st.inst id, none, none⟩ : ArtifactResult) ∈
        rewriteChangelog st (pipelineRun (pipelineOf st)).results := by
      unfold rewriteChangelog
      have := List.mem_map_of_mem (fun r =>
        if r.id == ArtifactID.changelog && r.content != "" then
          { r with content := (prependChangelogEntry r.content
              ((st.prevArtifacts.lookup ArtifactID.changelog).getD "")) }
        else r) hresmem
      simpa using this
    refine ⟨hA1, ⟨_, hskipmem, rfl, rfl, rfl⟩, ?_, ?_⟩
    · intro w hw
      rcases List.mem_append.mp hw with hwr | hwc
      · obtain ⟨r, hr, hwid, hcont, _⟩ :=
          writeResults_tag st.outputDir (pipelineRun (pipelineOf st)).results w hwr
        intro hweq
        have hrid : r.id = id := by rw [← hwid, hweq]
        have := hA2 r hr hrid
        rw [this] at hcont
        exact hcont rfl
      · obtain ⟨r2, hr2, hwid, _, hcont⟩ :=
          changelogWrites_tag st (rewriteChangelog st (pipelineRun (pipelineOf st)).results) w hwc
        intro hweq
        obtain ⟨r, hr, hid2, _, hemp⟩ :=
          rewriteChangelog_mem st (pipelineRun (pipelineOf st)).results r2 hr2
        have hr2id : r2.id = id := by rw [← hwid, hweq]
        have hrid : r.id = id := by rw [← hid2]; exact hr2id
        have hrskip := hA2 r hr hrid
        have hr2r : r2 = r := hemp (by rw [hrskip])
        rw [hr2r, hrskip] at hcont
        exact hcont rfl
    · show List.lookup (artifactName id)
          (lockFoldUpdate st (rewriteChangelog st (pipelineRun (pipelineOf st)).results)) =
        List.lookup (artifactName id) st.lock
      apply lookup_lockFoldUpdate_ne
      intro r2 hr2 hcond hnameeq
      obtain ⟨r, hr, hid2, _, hemp⟩ :=
        rewriteChangelog_mem st (pipelineRun (pipelineOf st)).results r2 hr2
      have hr2id : r2.id = id := artifactName_inj hnameeq
      have hrid : r.id = id := by rw [← hid2]; exact hr2id
      have hrskip := hA2 r hr hrid
      have hr2r : r2 = r := hemp (by rw [hrskip])
      rw [hr2r, hrskip] at hcond
      simp at hcond

/-- Witness: with the skill artifact cache-hit and everything else stale, a
successful run never calls the provider for the skill, reports it skipped
with empty content, writes nothing for it and leaves its entry alone. -/
theorem cache_skip_semantics_witness :
    (∀ c ∈ (runGenerate wStSkip).calls, c.id ≠ ArtifactID.skill) ∧
    (∃ r ∈ (runGenerate wStSkip).results,
      r.id = ArtifactID.skill ∧ r.err = none ∧ r.content = "") ∧
    (∀ w ∈ (runGenerate wStSkip).filesWritten, w.1 ≠ ArtifactID.skill) ∧
    List.lookup (artifactName ArtifactID.skill) (runGenerate wStSkip).lockAfter =
      List.lookup (artifactName ArtifactID.skill) wStSkip.lock :=
  cache_skip_semantics wStSkip ArtifactID.skill rfl rfl (by decide) (by decide)
    (by decide) (by decide)

/-- C5 counterexample: with the allow-list ["skill"], every enabled artifact
is a cache hit, and the run still makes zero provider calls and succeeds —
but it does not terminate at the short circuit: it proceeds through the
whole pipeline and rewrites the lockfile, because the all-up-to-date check
ranges over the fixed sequence, not the enabled set. -/
theorem enabled_cache_hit_no_short_circuit :
    enabledArtifacts wStOnly.only wStOnly.inst.artifacts = [ArtifactID.skill] ∧
    (∀ id ∈ enabledArtifacts wStOnly.only wStOnly.inst.artifacts,
      isUpToDate wStOnly.lock (artifactName id)
        (inputHashOf wStOnly.inst wStOnly.ir id) = true) ∧
    (runGenerate wStOnly).shortCircuited = false ∧
    (runGenerate wStOnly).calls = [] ∧
    (runGenerate wStOnly).error = none ∧
    (runGenerate wStOnly).lockSaved = true := by
  decide

/-- C5 amended: when every artifact of the fixed sequence is cache-hit (not
merely every enabled one), the run terminates at the short circuit with zero
provider calls, no results, no error, no file writes and no lockfile save. -/
theorem all_up_to_date_short_circuit (st : GenState)
    (hforce : st.force = false) (hdry : st.dryRun = false)
    (hall : ∀ id ∈ AllArtifacts,
      isUpToDate st.lock (artifactName id) (inputHashOf st.inst st.ir id) = true) :
    (runGenerate st).shortCircuited = true ∧
    (runGenerate st).calls = [] ∧
    (runGenerate st).results = [] ∧
    (runGenerate st).error = none ∧
    (runGenerate st).filesWritten = [] ∧
    (runGenerate st).lockAfter = st.lock ∧
    (runGenerate st).lockSaved = false := by
  have hup : allUpToDateOf st = true := by
    unfold allUpToDateOf
    rw [hforce, hdry]
    simp only [Bool.not_false, Bool.and_self, Bool.true_and]
    exact List.all_eq_true.mpr hall
  simp [runGenerate, hup]

/-- Witness: a lockfile holding the current input hash of every artifact of
the fixed sequence short-circuits the run. -/
theorem all_up_to_date_short_circuit_witness :
    (runGenerate wStAll).shortCircuited = true ∧
    (runGenerate wStAll).calls = [] ∧
    (runGenerate wStAll).results = [] ∧
    (runGenerate wStAll).error = none ∧
    (runGenerate wStAll).filesWritten = [] ∧
    (runGenerate wStAll).lockAfter = wStAll.lock ∧
    (runGenerate wStAll).lockSaved = false :=
  all_up_to_date_short_circuit wStAll rfl rfl (by decide)

/-- C8 counterexample: with the reference artifact disabled by its toggle and
exactly its stored hash stale, every enabled artifact is up to date, yet the
drift query reports the disabled reference artifact — the query ranges over
the fixed sequence, not the enabled set. -/
theorem drift_checks_disabled_artifacts :
    ArtifactID.reference ∉ enabledArtifacts [] wDiffDisabled.inst.artifacts ∧
    (∀ id ∈ enabledArtifacts [] wDiffDisabled.inst.artifacts,
      isUpToDate wDiffDisabled.lock (artifactName id)
        (inputHashOf wDiffDisabled.inst wDiffDisabled.ir id) = true) ∧
    (runDiff wDiffDisabled).drifted = [ArtifactID.reference] := by
  decide

/-- C8 amended: the drift query recomputes the pipeline's input-hash formula
for every artifact of the fixed sequence (enabled or not); when exactly one
artifact's stored hash disagrees, exactly that one id is reported; and the
query makes no provider call and leaves the lockfile unchanged. -/
theorem drift_query_exact (st : DiffState) (id0 : ArtifactID)
    (h : ∀ id ∈ AllArtifacts,
      ((isUpToDate st.lock (artifactName id) (inputHashOf st.inst st.ir id)
        = false) ↔ id = id0)) :
    (runDiff st).drifted = [id0] ∧
    (runDiff st).lockAfter = st.lock ∧
    (runDiff st).calls = [] := by
  refine ⟨?_, rfl, rfl⟩
  show AllArtifacts.filter (fun id =>
    !(isUpToDate st.lock (artifactName id) (inputHashOf st.inst st.ir id))) = [id0]
  have hcong : AllArtifacts.filter (fun id =>
      !(isUpToDate st.lock (artifactName id) (inputHashOf st.inst st.ir id))) =
      AllArtifacts.filter (fun id => id == id0) := by
    apply List.filter_congr
    intro a ha
    have hiff := h a ha
    cases hup : isUpToDate st.lock (artifactName a) (inputHashOf st.inst st.ir a)
    · simp only [Bool.not_false]
      exact (beq_iff_eq.mpr (hiff.mp hup)).symm
    · simp only [Bool.not_true]
      have hne : a ≠ id0 := fun he => by
        have hf := hiff.mpr he
        rw [hup] at hf
        cases hf
      exact (beq_eq_false_iff_ne.mpr hne).symm
  rw [hcong]
  cases id0 <;> decide

/-- Witness: with exactly the skill artifact's entry stale, the drift query
reports exactly the skill artifact and touches nothing. -/
theorem drift_query_exact_witness :
    (runDiff wDiffOne).drifted = [ArtifactID.skill] ∧
    (runDiff wDiffOne).lockAfter = wDiffOne.lock ∧
    (runDiff wDiffOne).calls = [] :=
  drift_query_exact wDiffOne ArtifactID.skill (by decide)

/-- Every provider call of one artifact generation is exactly the request
built from that artifact's system prompt, user message and token budget. -/
theorem generateArtifact_call_shape (p : Pipeline) (id : ArtifactID) :
    ∀ c ∈ (generateArtifact p id).2,
      c = ⟨id, systemPromptFor id,
           userMessage p.inst p.ir p.opts.prevArtifacts id,
           maxTokensForArtifact id⟩ := by
  intro c hc
  simp only [generateArtifact] at hc
  split at hc
  · simp at hc
  · split at hc
    · simp at hc
    · split at hc <;> (simp at hc; rw [hc])

/-- A changelog provider call can only happen after every parallel result
came back error-free, and it is the changelog generation's own call. -/
theorem pipelineRun_changelog_call_gating (p : Pipeline) (c : GenCall)
    (hc : c ∈ (pipelineRun p).calls) (hcid : c.id = ArtifactID.changelog) :
    (∀ r ∈ parallelResultsOf p, r.err = none) ∧
    c ∈ (generateArtifact p ArtifactID.changelog).2 := by
  cases hfind : (parallelResultsOf p).find? (fun x => x.err.isSome) with
  | some r0 =>
    simp only [pipelineRun, hfind] at hc
    exact absurd hcid (parallelCalls_ne_changelog p c hc)
  | none =>
    have hall : ∀ r ∈ parallelResultsOf p, r.err = none := by
      intro r hr
      have hne := List.find?_eq_none.mp hfind r hr
      cases he : r.err
      · rfl
      · simp [he] at hne
    by_cases hcl : ArtifactID.changelog ∈ enabledArtifacts p.opts.only p.inst.artifacts
    · cases hce : ((generateArtifact p ArtifactID.changelog).1).err with
      | some e =>
        simp only [pipelineRun, hfind] at hc
        rw [if_pos (by exact List.elem_iff.mpr hcl)] at hc
        rw [hce] at hc
        rcases List.mem_append.mp hc with h | h
        · exact absurd hcid (parallelCalls_ne_changelog p c h)
        · exact ⟨hall, h⟩
      | none =>
        simp only [pipelineRun, hfind] at hc
        rw [if_pos (by exact List.elem_iff.mpr hcl)] at hc
        rw [hce] at hc
        rcases List.mem_append.mp hc with h | h
        · exact absurd hcid (parallelCalls_ne_changelog p c h)
        · exact ⟨hall, h⟩
    · simp only [pipelineRun, hfind] at hc
      rw [if_neg (by simpa using fun hm => hcl (List.elem_iff.mp hm))] at hc
      exact absurd hcid (parallelCalls_ne_changelog p c hc)

/-- A stored non-empty previous sibling document appears among the changelog's
previous-artifact parts. -/
theorem changelogPrevParts_mem_sib (prev : List (ArtifactID × String))
    (pid : ArtifactID) (s : String)
    (hmem : pid ∈ [ArtifactID.skill, ArtifactID.reference, ArtifactID.examples])
    (hlk : prev.lookup pid = some s) (hne : s ≠ "") :
    ("## Previous " ++ artifactName pid ++ "\n" ++ s) ∈ changelogPrevParts prev := by
  simp only [changelogPrevParts]
  have hsib : ("## Previous " ++ artifactName pid ++ "\n" ++ s) ∈
      ([ArtifactID.skill, ArtifactID.reference, ArtifactID.examples]).filterMap
        (fun pid =>
          match prev.lookup pid with
          | some s => if s = "" then none
              else some ("## Previous " ++ artifactName pid ++ "\n" ++ s)
          | none => none) :=
    List.mem_filterMap.mpr ⟨pid, hmem, by simp [hlk, hne]⟩
  split
  · rename_i h0
    exfalso
    have hx : ("## Previous " ++ artifactName pid ++ "\n" ++ s) ∈
        ([] : List String) := by
      rw [← h0]
      exact List.mem_append_left _ hsib
    simp at hx
  · exact List.mem_append_left _ hsib

/-- A stored non-empty previous changelog appears among the changelog's
previous-artifact parts. -/
theorem changelogPrevParts_mem_changelog (prev : List (ArtifactID × String))
    (s : String)
    (hlk : prev.lookup ArtifactID.changelog = some s) (hne : s ≠ "") :
    ("## Previous CHANGELOG.md\n" ++ s) ∈ changelogPrevParts prev := by
  simp only [changelogPrevParts]
  have hcl : ("## Previous CHANGELOG.md\n" ++ s) ∈
      (match prev.lookup ArtifactID.changelog with
       | some s => if s = "" then [] else ["## Previous CHANGELOG.md\n" ++ s]
       | none => ([] : List String)) := by
    simp [hlk, hne]
  split
  · rename_i h0
    exfalso
    have hx : ("## Previous CHANGELOG.md\n" ++ s) ∈ ([] : List String) := by
      rw [← h0]
      exact List.mem_append_right _ hcl
    simp at hx
  · exact List.mem_append_right _ hcl

/-- When every stored previous artifact is empty or absent, the
previous-artifact block is exactly the first-generation marker. -/
theorem changelogPrevParts_marker (prev : List (ArtifactID × String))
    (hall : ∀ pid ∈ [ArtifactID.skill, ArtifactID.reference, ArtifactID.examples,
      ArtifactID.changelog], ∀ s, prev.lookup pid = some s → s = "") :
    changelogPrevParts prev = [noPrevMarker] := by
  simp only [changelogPrevParts]
  have hsibs : ([ArtifactID.skill, ArtifactID.reference, ArtifactID.examples]).filterMap
      (fun pid =>
        match prev.lookup pid with
        | some s => if s = "" then none
            else some ("## Previous " ++ artifactName pid ++ "\n" ++ s)
        | none => none) = [] := by
    rw [List.filterMap_eq_nil_iff]
    intro pid hpid
    have hp4 : pid ∈ [ArtifactID.skill, ArtifactID.reference, ArtifactID.examples,
        ArtifactID.changelog] := by
      simp only [List.mem_cons, List.not_mem_nil, or_false] at hpid ⊢
      tauto
    cases hlk : prev.lookup pid with
    | none => rfl
    | some s =>
      have : s = "" := hall pid hp4 s hlk
      simp [this]
  have hcl : (match prev.lookup ArtifactID.changelog with
      | some s => if s = "" then [] else ["## Previous CHANGELOG.md\n" ++ s]
      | none => ([] : List String)) = [] := by
    cases hlk : prev.lookup ArtifactID.changelog with
    | none => rfl
    | some s =>
      have : s = "" := hall ArtifactID.changelog (by decide) s hlk
      simp [this]
  simp [hsibs, hcl]

/-- Any part of the previous-artifact block is a part of the changelog's user
message. -/
theorem mem_changelogUserMessageParts (inst : Instructions)
    (ir : IntermediateRepr) (prev : List (ArtifactID × String)) (x : String)
    (hx : x ∈ changelogPrevParts prev) :
    x ∈ userMessageParts inst ir prev ArtifactID.changelog := by
  simp only [userMessageParts]
  exact List.mem_append_left _ (List.mem_append_right _ (by simpa using hx))

/-- C3 counterexample: in a concrete run where the skill artifact's final
content this run is the distinguished string FRESHSKILLCONTENT, the changelog
is generated (so all parallel results succeeded), yet its prompt does not
contain that same-run content — it contains the previous run's stored skill
document instead. -/
theorem changelog_prompt_excludes_current_run :
    (∃ r ∈ (runGenerate wSt3).results,
      r.id = ArtifactID.skill ∧ r.content = "FRESHSKILLCONTENT") ∧
    (∃ c ∈ (runGenerate wSt3).calls, c.id = ArtifactID.changelog ∧
      strContains c.userMsg "FRESHSKILLCONTENT" = false ∧
      strContains c.userMsg "OLDSKILLCONTENT" = true) := by
  decide

/-- C3 amended: the changelog reaches the provider only when every parallel
result succeeded, and its prompt is built from the previous run's stored
content — each stored non-empty previous sibling (skill, reference,
examples) and the previous changelog appear among its user-message parts,
with the explicit first-generation marker when none are available; the
current run's sibling content is not an input of the prompt. -/
theorem changelog_gating_and_previous_content (st : GenState) (c : GenCall)
    (hc : c ∈ (runGenerate st).calls) (hcid : c.id = ArtifactID.changelog) :
    (∀ r ∈ (runGenerate st).results, r.id ≠ ArtifactID.changelog → r.err = none) ∧
    c.userMsg = userMessage st.inst st.ir st.prevArtifacts ArtifactID.changelog ∧
    (∀ pid ∈ [ArtifactID.skill, ArtifactID.reference, ArtifactID.examples],
      ∀ s, st.prevArtifacts.lookup pid = some s → s ≠ "" →
        ("## Previous " ++ artifactName pid ++ "\n" ++ s) ∈
          userMessageParts st.inst st.ir st.prevArtifacts ArtifactID.changelog) ∧
    (∀ s, st.prevArtifacts.lookup ArtifactID.changelog = some s → s ≠ "" →
      ("## Previous CHANGELOG.md\n" ++ s) ∈
        userMessageParts st.inst st.ir st.prevArtifacts ArtifactID.changelog) ∧
    ((∀ pid ∈ [ArtifactID.skill, ArtifactID.reference, ArtifactID.examples,
        ArtifactID.changelog], ∀ s, st.prevArtifacts.lookup pid = some s → s = "") →
      noPrevMarker ∈
        userMessageParts st.inst st.ir st.prevArtifacts ArtifactID.changelog) := by
  have hau : allUpToDateOf st = false := by
    cases hau0 : allUpToDateOf st
    · rfl
    · have hcalls0 : (runGenerate st).calls = [] := by
        simp [runGenerate, hau0]
      rw [hcalls0] at hc
      simp at hc
  have hcalls : (runGenerate st).calls = (pipelineRun (pipelineOf st)).calls := by
    simp only [runGenerate, hau, Bool.false_eq_true, if_false]
    split
    · rfl
    · split
      · rfl
      · split
        · rfl
        · rfl
  rw [hcalls] at hc
  obtain ⟨hallok, hccl⟩ := pipelineRun_changelog_call_gating (pipelineOf st) c hc hcid
  have hcshape := generateArtifact_call_shape (pipelineOf st) ArtifactID.changelog c hccl
  refine ⟨?_, by rw [hcshape]; rfl, ?_, ?_, ?_⟩
  · have hrr : ∀ r ∈ (pipelineRun (pipelineOf st)).results,
        r.id ≠ ArtifactID.changelog → r.err = none := by
      intro r hr hrne
      obtain ⟨i, hi, rfl⟩ := pipelineRun_results_mem (pipelineOf st) r hr
      rw [generateArtifact_fst_id] at hrne
      have hpar : i ∈ parallelOf (pipelineOf st) :=
        List.mem_filter.mpr ⟨hi, by simp [hrne]⟩
      refine hallok _ ?_
      unfold parallelResultsOf
      exact List.mem_map_of_mem _ hpar
    have hcases : (runGenerate st).results = (pipelineRun (pipelineOf st)).results ∨
        (runGenerate st).results =
          rewriteChangelog st (pipelineRun (pipelineOf st)).results := by
      simp only [runGenerate, hau, Bool.false_eq_true, if_false]
      split
      · exact Or.inl rfl
      · split
        · exact Or.inl rfl
        · split
          · exact Or.inl rfl
          · exact Or.inr rfl
    intro r2 hr2 hne
    rcases hcases with hE | hE
    · rw [hE] at hr2
      exact hrr r2 hr2 hne
    · rw [hE] at hr2
      obtain ⟨r, hr, hid2, herr2, _⟩ :=
        rewriteChangelog_mem st (pipelineRun (pipelineOf st)).results r2 hr2
      rw [herr2]
      rw [hid2] at hne
      exact hrr r hr hne
  · intro pid hpid s hlk hne
    exact mem_changelogUserMessageParts st.inst st.ir st.prevArtifacts _
      (changelogPrevParts_mem_sib st.prevArtifacts pid s hpid hlk hne)
  · intro s hlk hne
    exact mem_changelogUserMessageParts st.inst st.ir st.prevArtifacts _
      (changelogPrevParts_mem_changelog st.prevArtifacts s hlk hne)
  · intro hall
    refine mem_changelogUserMessageParts st.inst st.ir st.prevArtifacts _ ?_
    rw [changelogPrevParts_marker st.prevArtifacts hall]
    exact List.mem_singleton_self _

set_option maxRecDepth 4096 in
/-- Witness of the amended claim at the concrete changelog call of the
fixture run: the call's prompt is the changelog user message built from the
previous run's stored content. -/
theorem changelog_gating_and_previous_content_witness :
    (⟨ArtifactID.changelog, ChangelogPrompt,
      userMessage wInst wIR wPrev3 ArtifactID.changelog, 4096⟩ : GenCall).userMsg =
      userMessage wSt3.inst wSt3.ir wSt3.prevArtifacts ArtifactID.changelog :=
  (changelog_gating_and_previous_content wSt3
    ⟨ArtifactID.changelog, ChangelogPrompt,
     userMessage wInst wIR wPrev3 ArtifactID.changelog, 4096⟩
    (by decide) rfl).2.1

end SkillCompiler
